import Mathlib

/-!
Verification development for the midiToAudio batch conversion engine.

Shallow embedding of the JavaScript sources:
  * `src/pipeline.js`         — payload extraction, per-attempt pipeline, retry wrapper
  * `src/batchProcessor.js`   — ProcessingStats, concurrency-bounded orchestrator loop
  * `src/database/queries.js` — count and cursor queries with status exclusions
  * `src/filesystem/fileWriter.js` + `src/utils/tempFiles.js` — atomic write
  * `src/filesystem/pathGenerator.js` — sanitization and collision handling

JavaScript strings are modelled as lists of UTF-16 code units (`List Nat`),
byte buffers as lists of byte values (`List Nat`, each `< 256`).
-/

namespace MidiToAudio

/-! ## Payload codecs (pipeline.js lines 27-87)

`Buffer.from(s, 'latin1')` keeps the low 8 bits of every code unit. -/

/-- Node `Buffer.from(s, 'latin1')`: each UTF-16 code unit is truncated to a byte. -/
def latin1Decode (s : List Nat) : List Nat := s.map (· % 256)

/-- Index of a character in the base64 alphabet as Node's decoder reads it:
the standard alphabet plus the RFC 4648 section 5 URL-safe characters `-`
(62) and `_` (63); `none` for characters the forgiving decoder skips. -/
def b64Val (c : Nat) : Option Nat :=
  if 65 ≤ c ∧ c ≤ 90 then some (c - 65)        -- A-Z
  else if 97 ≤ c ∧ c ≤ 122 then some (c - 97 + 26)  -- a-z
  else if 48 ≤ c ∧ c ≤ 57 then some (c - 48 + 52)   -- 0-9
  else if c = 43 ∨ c = 45 then some 62          -- + and URL-safe -
  else if c = 47 ∨ c = 95 then some 63          -- / and URL-safe _
  else none

def isB64Char (c : Nat) : Bool := (b64Val c).isSome

/-- The 6-bit value `v < 64` rendered as a base64 alphabet character code. -/
def b64Char (v : Nat) : Nat :=
  if v < 26 then 65 + v
  else if v < 52 then 97 + (v - 26)
  else if v < 62 then 48 + (v - 52)
  else if v = 62 then 43
  else 47

/-- Decode a run of base64 alphabet values, 4 characters to 3 bytes, with
Node's handling of a short final group (2 chars → 1 byte, 3 chars → 2 bytes). -/
def b64DecodeChunks : List Nat → List Nat
  | c1 :: c2 :: c3 :: c4 :: rest =>
      let v1 := (b64Val c1).getD 0
      let v2 := (b64Val c2).getD 0
      let v3 := (b64Val c3).getD 0
      let v4 := (b64Val c4).getD 0
      (v1 * 4 + v2 / 16) :: ((v2 % 16) * 16 + v3 / 4) :: ((v3 % 4) * 64 + v4) ::
        b64DecodeChunks rest
  | [c1, c2, c3] =>
      let v1 := (b64Val c1).getD 0
      let v2 := (b64Val c2).getD 0
      let v3 := (b64Val c3).getD 0
      [v1 * 4 + v2 / 16, (v2 % 16) * 16 + v3 / 4]
  | [c1, c2] =>
      let v1 := (b64Val c1).getD 0
      let v2 := (b64Val c2).getD 0
      [v1 * 4 + v2 / 16]
  | _ => []

/-- Node `Buffer.from(s, 'base64')`: decoding stops at the first `=` (code
61), other non-alphabet characters are skipped, and the remaining characters
are consumed in groups of four. -/
def base64Decode (s : List Nat) : List Nat :=
  b64DecodeChunks ((s.takeWhile (fun c => c != 61)).filter isB64Char)

/-- Standard base64 encoding with `=` padding (code 61), as produced by
`Buffer.toString('base64')`. -/
def base64Encode : List Nat → List Nat
  | b1 :: b2 :: b3 :: rest =>
      b64Char (b1 / 4) :: b64Char ((b1 % 4) * 16 + b2 / 16) ::
      b64Char ((b2 % 16) * 4 + b3 / 64) :: b64Char (b3 % 64) :: base64Encode rest
  | [b1, b2] =>
      [b64Char (b1 / 4), b64Char ((b1 % 4) * 16 + b2 / 16), b64Char ((b2 % 16) * 4), 61]
  | [b1] => [b64Char (b1 / 4), b64Char ((b1 % 4) * 16), 61, 61]
  | [] => []

/-- Value of a hex digit character code, `none` for non-hex characters. -/
def hexVal (c : Nat) : Option Nat :=
  if 48 ≤ c ∧ c ≤ 57 then some (c - 48)         -- 0-9
  else if 97 ≤ c ∧ c ≤ 102 then some (c - 97 + 10)  -- a-f
  else if 65 ≤ c ∧ c ≤ 70 then some (c - 65 + 10)   -- A-F
  else none

/-- Node `Buffer.from(s, 'hex')`: decodes digit pairs, stopping at the first
invalid pair; a trailing lone digit is ignored. -/
def hexDecode : List Nat → List Nat
  | c1 :: c2 :: rest =>
      match hexVal c1, hexVal c2 with
      | some v1, some v2 => (v1 * 16 + v2) :: hexDecode rest
      | _, _ => []
  | _ => []

/-- The value `v < 16` rendered as a lowercase hex digit character code. -/
def hexDigitChar (v : Nat) : Nat := if v < 10 then 48 + v else 87 + v

/-- Lowercase hex rendering of a byte buffer. -/
def hexEncode : List Nat → List Nat
  | b1 :: rest => hexDigitChar (b1 / 16) :: hexDigitChar (b1 % 16) :: hexEncode rest
  | [] => []

/-- MIDI magic-header check from pipeline.js lines 36-38: the buffer has at
least 4 bytes and starts with `MThd` (0x4D 0x54 0x68 0x64). -/
def hasMagic (b : List Nat) : Bool :=
  match b with
  | x0 :: x1 :: x2 :: x3 :: _ => x0 == 0x4D && x1 == 0x54 && x2 == 0x68 && x3 == 0x64
  | _ => false

/-! ## Record model and payload extraction (pipeline.js lines 17-87) -/

/-- The shapes of `document.midifile.data` distinguished by pipeline.js:
a JS string, the five recognized binary-carrying shapes (each contributing its
byte buffer), or an unrecognized object. -/
inductive MidiData where
  | str (s : List Nat)            -- typeof data === 'string'
  | bsonBuffer (b : List Nat)     -- data.buffer is a Buffer (MongoDB BSON Binary)
  | directBuffer (b : List Nat)   -- Buffer.isBuffer(data)
  | valueFn (b : List Nat)        -- data.value() method
  | arrayBuffer (b : List Nat)    -- data.buffer instanceof ArrayBuffer
  | objBuffer (b : List Nat)      -- plain object with a buffer property
  | unknown                       -- anything else
  deriving DecidableEq, Repr

structure MidiDocument where
  hash : Option (List Nat)        -- document.midifile?.hash (code units; [] is falsy)
  data : Option MidiData          -- document.midifile?.data
  deriving DecidableEq, Repr

/-- Truthiness of `document.midifile?.hash` in `if (!hash)`. -/
def hashMissing (doc : MidiDocument) : Bool :=
  match doc.hash with
  | none => true
  | some h => h.isEmpty

inductive ExtractErr where
  | missingHash      -- 'Document missing midifile.hash'
  | missingData      -- 'Document missing midifile.data'
  | unknownFormat    -- 'Document midifile.data in unknown format'
  deriving DecidableEq, Repr

/-- Decoding of a string payload, pipeline.js lines 31-52: latin1 first, kept
when the magic header validates; otherwise base64, kept when the magic header
validates; otherwise the hex decoding is kept with no magic validation.
(The `try`/`catch` around the base64 attempt is dead: `Buffer.from` does not
throw for string inputs.) -/
def decodeStringPayload (s : List Nat) : List Nat :=
  let b1 := latin1Decode s
  if hasMagic b1 then b1
  else
    let b2 := base64Decode s
    if hasMagic b2 then b2
    else hexDecode s

/-- Payload extraction, pipeline.js lines 17-87: hash check, then the data
format dispatch, then the final `!midiBuffer || midiBuffer.length === 0` check. -/
def extractMidiBuffer (doc : MidiDocument) : Except ExtractErr (List Nat) :=
  if hashMissing doc then .error .missingHash
  else
    match doc.data with
    | none => .error .missingData       -- midiBuffer never assigned
    | some d =>
      match d with
      | .str s =>
          let buf := decodeStringPayload s
          if buf.isEmpty then .error .missingData else .ok buf
      | .bsonBuffer b | .directBuffer b | .valueFn b | .arrayBuffer b | .objBuffer b =>
          if b.isEmpty then .error .missingData else .ok b
      | .unknown => .error .unknownFormat

/-! ## Output path generation (src/filesystem/pathGenerator.js)

Strings are lists of UTF-16 code units. -/

/-- Character class of `/[<>:"/\\|?*\x00-\x1f]/` in pathGenerator.js line 85. -/
def isIllegalPathChar (c : Nat) : Bool :=
  c < 0x20 || c == 60 || c == 62 || c == 58 || c == 34 || c == 47 ||
    c == 92 || c == 124 || c == 63 || c == 42

/-- JavaScript `\s` character class (ECMA-262 WhiteSpace and LineTerminator). -/
def isJsSpace (c : Nat) : Bool :=
  c == 9 || c == 10 || c == 11 || c == 12 || c == 13 || c == 32 ||
    c == 160 || c == 0x1680 || (0x2000 ≤ c && c ≤ 0x200A) ||
    c == 0x2028 || c == 0x2029 || c == 0x202F || c == 0x205F ||
    c == 0x3000 || c == 0xFEFF

/-- Whitespace or dot, the class `[\s.]` of the trimming regex (line 87). -/
def isTrimChar (c : Nat) : Bool := isJsSpace c || c == 46

/-- Effect of `replace(/^[\s.]+|[\s.]+$/g, '')`: one maximal leading and one
maximal trailing run of whitespace/dots are removed. -/
def trimOuter (s : List Nat) : List Nat :=
  ((s.dropWhile isTrimChar).reverse.dropWhile isTrimChar).reverse

/-- Effect of `replace(/\s+/g, ' ')`: every maximal whitespace run becomes a
single space (code 32). -/
def collapseWs : List Nat → List Nat
  | [] => []
  | [c] => [if isJsSpace c then 32 else c]
  | a :: b :: rest =>
      if isJsSpace a && isJsSpace b then collapseWs (b :: rest)
      else (if isJsSpace a then 32 else a) :: collapseWs (b :: rest)

/-- The string `'Unknown'` used as the sanitization fallback. -/
def unknownPlaceholder : List Nat := [85, 110, 107, 110, 111, 119, 110]

/-- JavaScript values a caller might pass to `sanitizePathComponent`. -/
inductive JsVal where
  | jsNull
  | undef
  | str (s : List Nat)
  | nonString          -- any truthy value that is not a string
  deriving DecidableEq

/-- The replace/trim/collapse/truncate chain of pathGenerator.js lines 83-91. -/
def sanitizeChain (s : List Nat) : List Nat :=
  (collapseWs (trimOuter (s.filter (fun c => !isIllegalPathChar c)))).take 200

/-- Model of `sanitizePathComponent` (pathGenerator.js lines 78-94): non-strings, `null`,
`undefined` and the empty string fall to `'Unknown'` via the initial guard;
a cleaned-to-empty string falls to `'Unknown'` via the final `|| 'Unknown'`. -/
def sanitizePathComponent (v : JsVal) : List Nat :=
  match v with
  | .str s =>
      if s.isEmpty then unknownPlaceholder   -- '' is falsy: initial guard fires
      else
        let r := sanitizeChain s
        if r.isEmpty then unknownPlaceholder else r
  | _ => unknownPlaceholder

/-- The code units of `'.mp3'`. -/
def mp3Ext : List Nat := [46, 109, 112, 51]

/-- Model of `generateUniquePath` (pathGenerator.js lines 166-175): drop the last four
characters (`basePath.slice(0, -ext.length)` with `ext = '.mp3'`), append `_`,
the first eight characters of the hash, and `.mp3`. -/
def generateUniquePath (basePath hash : List Nat) : List Nat :=
  let pathWithoutExt := basePath.take (basePath.length - 4)
  let shortHash := hash.take 8
  pathWithoutExt ++ [95] ++ shortHash ++ mp3Ext

/-! ## Store queries (src/database/queries.js)

Only the status field matters for the exclusion clauses; the caller's filter is
an opaque predicate spread into the query (`{ ...filter }`). -/

structure QueryConfig where
  /-- Flag `config.processing.enableDuplicateCheck` (default true). -/
  enableDuplicateCheck : Bool
  /-- Flag `config.processing.retryFailed`: referenced by queries.js but never
  defined in config.js, so at run time it reads `undefined`, which is falsy. -/
  retryFailed : Bool
  deriving DecidableEq

structure StoreRecord where
  /-- Field `midiToAudioProcessing.status`; `none` when the field is absent. -/
  status : Option String
  deriving DecidableEq

/-- Query built by `countMidiDocuments` (queries.js lines 114-127): the filter
plus, when duplicate checking is enabled, `status $ne 'completed'` (which also
matches records without the field). -/
def countQueryMatches (cfg : QueryConfig) (filter : StoreRecord → Bool)
    (r : StoreRecord) : Bool :=
  filter r && (!cfg.enableDuplicateCheck || !(r.status == some "completed"))

/-- Status values excluded by `getMidiDocumentsCursor` (queries.js lines
167-173); the preliminary clause built in lines 144-164 is unconditionally
overwritten by this `$nin` whenever it is non-empty. -/
def statusExclusions (cfg : QueryConfig) : List String :=
  (if cfg.enableDuplicateCheck then ["completed"] else []) ++
  (if !cfg.retryFailed then ["failed"] else [])

/-- Query built by `getMidiDocumentsCursor` (queries.js lines 134-176): the
filter plus `status $nin statusExclusions` (missing fields match `$nin`). -/
def cursorQueryMatches (cfg : QueryConfig) (filter : StoreRecord → Bool)
    (r : StoreRecord) : Bool :=
  filter r &&
    (match r.status with
     | some s => !(statusExclusions cfg).contains s
     | none => true)

/-! ## Pipeline attempt and retry wrapper (pipeline.js lines 89-203)

The three transforms and the atomic write are external collaborators; a
`PipelineEnv` records whether each invocation succeeds or throws, and with
which message. An attempt produces the persisted-status event sequence and the
temp-file accounting: `wavPath` is allocated before rendering,
`normalizedWavPath` before normalizing, `tempMp3Path` before encoding, and the
`finally` block (pipeline.js lines 165-169) releases exactly those three.
`writeFileAtomic` allocates a fourth temp file of its own during Committing
(fileWriter.js line 82); that one is NOT covered by the pipeline's finally:
it disappears only when the commit succeeds (the rename moves it into place,
or the EXDEV fallback unlinks it at line 92). -/

inductive StatusEvent where
  | processing
  | completed
  | failed (msg : String)
  deriving DecidableEq, Repr

/-- Outcome of one `writeFileAtomic` invocation (fileWriter.js lines 65-120),
distinguishing where in the function a failure arises, because the fate of
the `.mp3.tmp` temp file depends on it. -/
inductive CommitSpec where
  /-- Line 87 rename succeeds, or (`exdev = true`) the line 91 fallback copy
  and line 92 unlink succeed: the temp file is moved away or deleted. -/
  | success (exdev : Bool)
  /-- Line 74: the disk-space preflight throws before the temp is allocated. -/
  | preflightFail (msg : String)
  /-- Line 83: `fs.copyFile` onto the temp path throws; nothing deletes the
  (possibly partially written) temp file. -/
  | copyTempFail (msg : String)
  /-- Line 94: `renameSync` fails with a non-EXDEV error and is rethrown; the
  fully copied temp file is left behind. -/
  | renameFail (msg : String)
  /-- Line 91: the EXDEV fallback copy throws before the line 92 unlink; the
  temp file is left behind. -/
  | exdevCopyFail (msg : String)

/-- Error message surfaced by the commit, `none` on success. -/
def commitError : CommitSpec → Option String
  | .success _ => none
  | .preflightFail m | .copyTempFail m | .renameFail m | .exdevCopyFail m => some m

/-- Number of temp files `writeFileAtomic` allocates (0 or 1): the preflight
failure throws before `getTempFilePath` runs. -/
def commitTempsCreated : CommitSpec → Nat
  | .preflightFail _ => 0
  | _ => 1

/-- Number of those temp files that no longer occupy the temp directory when
`writeFileAtomic` returns or throws: only a successful commit moves the temp
into place (rename) or unlinks it (EXDEV fallback); every failure after the
allocation leaks it until process-exit cleanup. -/
def commitTempsReleased : CommitSpec → Nat
  | .success _ => 1
  | _ => 0

structure PipelineEnv where
  render : Except String Unit
  normalize : Except String Unit
  encode : Except String Unit
  commit : CommitSpec

structure AttemptOutcome where
  result : Except String Unit
  events : List StatusEvent
  tempsCreated : Nat
  tempsReleased : Nat
  deriving Repr

def extractErrMsg : ExtractErr → String
  | .missingHash => "Document missing midifile.hash"
  | .missingData => "Document missing midifile.data"
  | .unknownFormat => "Document midifile.data in unknown format"

/-- One pipeline attempt, `processMidiDocument` (pipeline.js lines 17-171):
extraction errors are thrown before any status update or temp allocation;
otherwise `processing` is persisted, the stages run in sequence inside
`try`/`catch`/`finally`, a stage failure persists `failed` with the error
message in the catch block, and the finally block releases the three pipeline
temp paths allocated so far. The commit stage adds `writeFileAtomic`'s own
temp file to the accounting: created unless the preflight failed, and gone
again only when the commit succeeded. -/
def processMidiDocument (env : PipelineEnv) (doc : MidiDocument) : AttemptOutcome :=
  match extractMidiBuffer doc with
  | .error e => ⟨.error (extractErrMsg e), [], 0, 0⟩
  | .ok _ =>
    match env.render with
    | .error m => ⟨.error m, [.processing, .failed m], 1, 1⟩
    | .ok _ =>
      match env.normalize with
      | .error m => ⟨.error m, [.processing, .failed m], 2, 2⟩
      | .ok _ =>
        match env.encode with
        | .error m => ⟨.error m, [.processing, .failed m], 3, 3⟩
        | .ok _ =>
          match commitError env.commit with
          | some m => ⟨.error m, [.processing, .failed m],
              3 + commitTempsCreated env.commit, 3 + commitTempsReleased env.commit⟩
          | none => ⟨.ok (), [.processing, .completed], 4, 4⟩

/-- Message of the first failing stage of an attempt, `none` when all four
external calls succeed. -/
def attemptFailure (env : PipelineEnv) : Option String :=
  match env.render with
  | .error m => some m
  | .ok _ =>
    match env.normalize with
    | .error m => some m
    | .ok _ =>
      match env.encode with
      | .error m => some m
      | .ok _ => commitError env.commit

/-- Message of the first failing transform stage (render, normalize, encode),
`none` when all three succeed — the stages whose temp files the pipeline's
own `finally` block fully releases. -/
def transformFailure (env : PipelineEnv) : Option String :=
  match env.render with
  | .error m => some m
  | .ok _ =>
    match env.normalize with
    | .error m => some m
    | .ok _ =>
      match env.encode with
      | .error m => some m
      | .ok _ => none

structure RetryOutcome where
  result : Except String Unit
  attempts : Nat
  events : List StatusEvent
  deriving Repr

/-- Loop body of `processMidiDocumentWithRetry` (pipeline.js lines 179-203):
`attempt` is the 1-based loop counter, `remaining` the number of further
iterations the loop allows (`maxRetries + 1 - attempt`). The first successful
attempt returns; after the last attempt the last error is rethrown. The
attempt-indexed environment lets distinct attempts see distinct outcomes. -/
def processRetryGo (envs : Nat → PipelineEnv) (doc : MidiDocument)
    (attempt remaining : Nat) : RetryOutcome :=
  let a := processMidiDocument (envs attempt) doc
  match remaining with
  | 0 => ⟨a.result, 1, a.events⟩   -- last attempt: a success returns, a failure rethrows lastError
  | r + 1 =>
    match a.result with
    | .ok u => ⟨.ok u, 1, a.events⟩
    | .error _ =>
        let rest := processRetryGo envs doc (attempt + 1) r
        ⟨rest.result, rest.attempts + 1, a.events ++ rest.events⟩

/-- Model of `processMidiDocumentWithRetry` (pipeline.js line 179), default
`maxRetries = 2`: up to `maxRetries + 1` total attempts. -/
def processMidiDocumentWithRetry (envs : Nat → PipelineEnv) (doc : MidiDocument)
    (maxRetries : Nat := 2) : RetryOutcome :=
  processRetryGo envs doc 1 maxRetries

/-! ## ProcessingStats and per-record accounting (batchProcessor.js lines 11-56, 91-131) -/

structure ProcessingStats where
  total : Nat
  processed : Nat
  successful : Nat
  failed : Nat
  errors : List (String × String)   -- (hash, error message), pushed in order
  deriving DecidableEq, Repr

/-- The constructor state (counters zero, no errors; `startTime` not modelled). -/
def initialStats (total : Nat) : ProcessingStats := ⟨total, 0, 0, 0, []⟩

def recordSuccess (s : ProcessingStats) : ProcessingStats :=
  { s with processed := s.processed + 1, successful := s.successful + 1 }

def recordFailure (s : ProcessingStats) (e : String × String) : ProcessingStats :=
  { s with processed := s.processed + 1, failed := s.failed + 1,
           errors := s.errors ++ [e] }

/-- Outcome of one admitted record's unit of work in `processBatch`: the inner
async closure calls `recordSuccess` when `processMidiDocumentWithRetry`
resolves and `recordFailure` with `(hash, error.message)` when it rejects. -/
inductive DocOutcome where
  | success
  | failure (hash msg : String)
  deriving DecidableEq

def applyOutcome (s : ProcessingStats) : DocOutcome → ProcessingStats
  | .success => recordSuccess s
  | .failure h m => recordFailure s (h, m)

/-- Aggregate effect of a run: one `applyOutcome` per admitted record. -/
def runStats (outcomes : List DocOutcome) (s : ProcessingStats) : ProcessingStats :=
  outcomes.foldl applyOutcome s

/-- The stats invariant maintained by the two record operations. -/
def StatsInv (s : ProcessingStats) : Prop :=
  s.processed = s.successful + s.failed ∧ s.errors.length = s.failed

/-! ## Orchestrator concurrency discipline (batchProcessor.js lines 89-134)

Small-step model of the admission loop. `active` is `activePromises.size`
(every admitted unit joins the set immediately and leaves on settlement,
via the `finally` handler attached before the loop ever awaits the race);
`pending` counts records the cursor has not yet yielded. A `complete` step can
fire at any await point; `Promise.race` returns only after at least one active
unit has settled, so leaving `waiting` requires `active < c`. -/

inductive OrchPC where
  | loopTop    -- about to pull the next record from the cursor
  | afterAdd   -- promise created and added to activePromises
  | waiting    -- inside `await Promise.race(activePromises)`
  | drain      -- cursor exhausted, inside `await Promise.all(...)`
  deriving DecidableEq, Repr

structure OrchState where
  pending : Nat
  active : Nat
  pc : OrchPC
  deriving DecidableEq, Repr

inductive OrchStep (c : Nat) : OrchState → OrchState → Prop where
  /-- An in-flight unit settles and `finally` removes it from the set. -/
  | complete (p a : Nat) (pc : OrchPC) :
      OrchStep c ⟨p, a + 1, pc⟩ ⟨p, a, pc⟩
  /-- Lines 91-125: the cursor yields a record, its promise joins the set. -/
  | admitRec (p a : Nat) :
      OrchStep c ⟨p + 1, a, .loopTop⟩ ⟨p, a + 1, .afterAdd⟩
  /-- Line 128: `activePromises.size >= concurrency` holds, enter the race. -/
  | checkFull (p a : Nat) (h : c ≤ a) :
      OrchStep c ⟨p, a, .afterAdd⟩ ⟨p, a, .waiting⟩
  /-- Line 128: the set is below the limit, loop for the next record. -/
  | checkFree (p a : Nat) (h : a < c) :
      OrchStep c ⟨p, a, .afterAdd⟩ ⟨p, a, .loopTop⟩
  /-- Line 129: the race resolves — some unit settled, freeing a slot. -/
  | raceDone (p a : Nat) (h : a < c) :
      OrchStep c ⟨p, a, .waiting⟩ ⟨p, a, .loopTop⟩
  /-- Line 134: cursor exhausted, wait for the stragglers. -/
  | exhausted (a : Nat) :
      OrchStep c ⟨0, a, .loopTop⟩ ⟨0, a, .drain⟩

def orchInit (n : Nat) : OrchState := ⟨n, 0, .loopTop⟩

def OrchReachable (c n : Nat) (s : OrchState) : Prop :=
  Relation.ReflTransGen (OrchStep c) (orchInit n) s

/-! ## Atomic file writer (fileWriter.js lines 65-120, tempFiles.js lines 22-28)

A filesystem is an association list from paths to byte contents; a trace is
the sequence of externally observable filesystem states produced by one call.
`fs.copyFile` is not atomic: every prefix of the copied content is observable
at the destination while the copy runs. `renameSync` is atomic. -/

abbrev FileSys := List (String × List Nat)

def fsGet (fs : FileSys) (p : String) : Option (List Nat) := fs.lookup p

def fsDel (fs : FileSys) (p : String) : FileSys := fs.filter (fun e => e.1 ≠ p)

def fsSet (fs : FileSys) (p : String) (c : List Nat) : FileSys :=
  (p, c) :: fsDel fs p

/-- Observable states of `fs.copyFile(src, dst)`: the destination grows
through every prefix of the source content. -/
def copyFileTrace (fs : FileSys) (src dst : String) : List FileSys :=
  match fsGet fs src with
  | some content => (List.range (content.length + 1)).map (fun k => fsSet fs dst (content.take k))
  | none => []

/-- Atomic effect of `renameSync(src, dst)`. -/
def renameState (fs : FileSys) (src dst : String) : FileSys :=
  match fsGet fs src with
  | some c => fsDel (fsSet fs dst c) src
  | none => fs

/-- The temp path used by `writeFileAtomic` (line 82): `getTempFilePath`
places it under `config.output.tempDirectory` (tempFiles.js lines 22-27),
with a random hex name and the `.mp3.tmp` extension. -/
def writeFileAtomicTempPath (tempDirectory randomName : String) : String :=
  tempDirectory ++ "/" ++ randomName ++ ".mp3.tmp"

/-- Observable filesystem states of `writeFileAtomic(sourcePath, targetPath)`
(fileWriter.js lines 65-120), after the space preflight: copy the source to
the temp path, then either an atomic rename (normal path) or — when rename
fails with `EXDEV` — a non-atomic copy onto the target followed by deleting
the temp file. -/
def writeFileAtomicTrace (fs0 : FileSys) (sourcePath targetPath tempPath : String)
    (exdev : Bool) : List FileSys :=
  match fsGet fs0 sourcePath with
  | none => []   -- copyFile rejects; no state is changed
  | some content =>
    let afterCopy := fsSet fs0 tempPath content
    let t1 := copyFileTrace fs0 sourcePath tempPath
    if exdev then
      t1 ++ copyFileTrace afterCopy tempPath targetPath ++
        [fsDel (fsSet afterCopy targetPath content) tempPath]
    else
      t1 ++ [renameState afterCopy tempPath targetPath]

/-! ## Helper lemmas -/

theorem mem_collapseWs {c : Nat} :
    ∀ {l : List Nat}, c ∈ collapseWs l → c = 32 ∨ c ∈ l := by
  intro l
  induction l using collapseWs.induct with
  | case1 => simp [collapseWs]
  | case2 d =>
      by_cases hd : isJsSpace d = true <;> simp [collapseWs, hd] <;> intro h <;> simp [h]
  | case3 a b rest hab ih =>
      intro h
      rw [collapseWs, if_pos hab] at h
      rcases ih h with h32 | hmem
      · exact Or.inl h32
      · exact Or.inr (List.mem_cons_of_mem _ hmem)
  | case4 a b rest hab ih =>
      intro h
      rw [collapseWs, if_neg hab] at h
      rcases List.mem_cons.mp h with hc | hmem
      · by_cases ha : isJsSpace a = true
        · simp [ha] at hc; exact Or.inl hc
        · simp [ha] at hc; exact Or.inr (by simp [hc])
      · rcases ih hmem with h32 | hm
        · exact Or.inl h32
        · exact Or.inr (List.mem_cons_of_mem _ hm)

theorem trimOuter_subset (l : List Nat) : trimOuter l ⊆ l := by
  intro c hc
  unfold trimOuter at hc
  rw [List.mem_reverse] at hc
  have h1 := (List.dropWhile_sublist (l := (l.dropWhile isTrimChar).reverse)
    (p := isTrimChar)).subset hc
  rw [List.mem_reverse] at h1
  exact (List.dropWhile_sublist (l := l) (p := isTrimChar)).subset h1

theorem runStats_processed (os : List DocOutcome) :
    ∀ s : ProcessingStats, (runStats os s).processed = s.processed + os.length := by
  induction os with
  | nil => intro s; simp [runStats]
  | cons o rest ih =>
      intro s
      have h1 : runStats (o :: rest) s = runStats rest (applyOutcome s o) := rfl
      rw [h1, ih]
      cases o <;> simp [applyOutcome, recordSuccess, recordFailure] <;> omega

theorem runStats_inv (os : List DocOutcome) :
    ∀ s : ProcessingStats, StatsInv s → StatsInv (runStats os s) := by
  induction os with
  | nil => intro s h; simpa [runStats] using h
  | cons o rest ih =>
      intro s h
      have hstep : StatsInv (applyOutcome s o) := by
        cases o <;>
          simp_all [applyOutcome, recordSuccess, recordFailure, StatsInv] <;> omega
      have : runStats (o :: rest) s = runStats rest (applyOutcome s o) := by
        simp [runStats, List.foldl_cons]
      rw [this]
      exact ih _ hstep

/-- Strengthened orchestrator invariant: the active count never exceeds the
concurrency limit, and is strictly below it whenever the loop is about to
admit a record. -/
def orchInv (c : Nat) (s : OrchState) : Prop :=
  s.active ≤ c ∧ (s.pc = .loopTop → s.active < c)

theorem orchStep_preserves_inv {c : Nat} {s s' : OrchState}
    (hinv : orchInv c s) (hstep : OrchStep c s s') : orchInv c s' := by
  cases hstep with
  | complete p a pc =>
      rcases hinv with ⟨h1, _⟩
      exact ⟨Nat.le_of_succ_le h1, fun _ => Nat.lt_of_succ_le h1⟩
  | admitRec p a =>
      rcases hinv with ⟨_, h2⟩
      have := h2 rfl
      exact ⟨Nat.succ_le_of_lt this, by intro h; cases h⟩
  | checkFull p a h => exact ⟨hinv.1, by intro hh; cases hh⟩
  | checkFree p a h => exact ⟨hinv.1, fun _ => h⟩
  | raceDone p a h => exact ⟨hinv.1, fun _ => h⟩
  | exhausted a =>
      rcases hinv with ⟨h1, _⟩
      exact ⟨h1, by intro hh; cases hh⟩

theorem orchReachable_inv {c n : Nat} {s : OrchState} (hc : 1 ≤ c)
    (hr : OrchReachable c n s) : orchInv c s := by
  induction hr with
  | refl => exact ⟨Nat.zero_le c, fun _ => hc⟩
  | tail _ hstep ih => exact orchStep_preserves_inv ih hstep

/-! ## Claims C6-C10 -/

/-- C7: during any run of `processBatch` with concurrency parameter `c ≥ 1`,
no reachable state of the admission loop has more than `c` pipeline
executions holding an active slot, and the loop admits the next cursor
record only from states with fewer than `c` outstanding units. -/
theorem processBatch_concurrency_bound (c n : Nat) (s : OrchState) (hc : 1 ≤ c)
    (hr : OrchReachable c n s) :
    s.active ≤ c ∧ (s.pc = .loopTop → s.active < c) :=
  orchReachable_inv hc hr

/-- Witness for C7: the bound instantiated on a concrete run with
concurrency 2 after admitting the first of five records. -/
theorem processBatch_concurrency_bound_witness :
    (⟨4, 1, .afterAdd⟩ : OrchState).active ≤ 2 :=
  (processBatch_concurrency_bound 2 5 ⟨4, 1, .afterAdd⟩ (by decide)
    (Relation.ReflTransGen.single (OrchStep.admitRec 4 0))).1

/-- C8: `generateUniquePath` is a pure function of `(path, key)`: repeated
calls on the same colliding path and key yield the same result, and that
result is the input path with `_` plus the first eight characters of the
content-hash key inserted before the `.mp3` extension. -/
theorem generateUniquePath_pure_hash_suffix (stem key : List Nat) :
    generateUniquePath (stem ++ mp3Ext) key =
      stem ++ [95] ++ key.take 8 ++ mp3Ext ∧
    generateUniquePath (stem ++ mp3Ext) key =
      generateUniquePath (stem ++ mp3Ext) key := by
  refine ⟨?_, rfl⟩
  have hlen : (stem ++ mp3Ext).length - 4 = stem.length := by
    simp [mp3Ext]
  simp only [generateUniquePath, hlen]
  rw [List.take_left]

/-- C9: path-component sanitization never returns an empty component nor one
containing a filesystem-illegal character, for every input value (strings,
`null`, non-strings); the `'Unknown'` placeholder is returned whenever the
cleaning chain empties the string. -/
theorem sanitizePathComponent_safe (v : JsVal) :
    sanitizePathComponent v ≠ [] ∧
    (∀ c ∈ sanitizePathComponent v, isIllegalPathChar c = false) ∧
    (∀ s, v = JsVal.str s → sanitizeChain s = [] →
      sanitizePathComponent v = unknownPlaceholder) := by
  have hplaceholder : unknownPlaceholder ≠ [] ∧
      ∀ c ∈ unknownPlaceholder, isIllegalPathChar c = false := by decide
  cases v with
  | str s =>
      by_cases hs : s.isEmpty
      · have hout : sanitizePathComponent (JsVal.str s) = unknownPlaceholder := by
          simp [sanitizePathComponent, hs]
        rw [hout]
        exact ⟨hplaceholder.1, fun c hc => hplaceholder.2 c hc, fun t ht _ => rfl⟩
      · by_cases hr : (sanitizeChain s).isEmpty
        · have hout : sanitizePathComponent (JsVal.str s) = unknownPlaceholder := by
            simp [sanitizePathComponent, hs, hr]
          rw [hout]
          exact ⟨hplaceholder.1, fun c hc => hplaceholder.2 c hc, fun t ht _ => rfl⟩
        · have hout : sanitizePathComponent (JsVal.str s) = sanitizeChain s := by
            simp [sanitizePathComponent, hs, hr]
          refine ⟨?_, ?_, ?_⟩
          · rw [hout]; simpa [List.isEmpty_iff] using hr
          · intro c hc
            rw [hout] at hc
            unfold sanitizeChain at hc
            have hc1 := List.take_subset _ _ hc
            rcases mem_collapseWs hc1 with h32 | hmem
            · subst h32; decide
            · have hc2 := trimOuter_subset _ hmem
              have := List.of_mem_filter hc2
              simpa using this
          · intro t ht hchain
            have : s = t := by injection ht
            subst this
            simp [List.isEmpty_iff, hchain] at hr
  | jsNull =>
      exact ⟨hplaceholder.1, fun c hc => hplaceholder.2 c hc, by intro t ht; cases ht⟩
  | undef =>
      exact ⟨hplaceholder.1, fun c hc => hplaceholder.2 c hc, by intro t ht; cases ht⟩
  | nonString =>
      exact ⟨hplaceholder.1, fun c hc => hplaceholder.2 c hc, by intro t ht; cases ht⟩

/-- Witness for C9: the guarantees evaluated on the concrete input `'///'`,
which sanitization empties, so the placeholder is returned. -/
theorem sanitizePathComponent_safe_witness :
    sanitizePathComponent (JsVal.str [47, 47, 47]) ≠ [] ∧
    sanitizePathComponent (JsVal.str [47, 47, 47]) = unknownPlaceholder := by
  refine ⟨(sanitizePathComponent_safe (JsVal.str [47, 47, 47])).1, ?_⟩
  exact (sanitizePathComponent_safe (JsVal.str [47, 47, 47])).2.2 _ rfl (by decide)

/-- C10: `ProcessingStats` bookkeeping — `recordSuccess` increments
`processed` and `successful` by exactly one, `recordFailure` increments
`processed` and `failed` by exactly one and appends exactly one error entry,
the invariant `processed = successful + failed ∧ errors.length = failed` is
preserved by any sequence of the two operations, and each admitted record
contributes exactly one operation to the aggregate. -/
theorem processingStats_invariant (s : ProcessingStats) (e : String × String)
    (outcomes : List DocOutcome) (hinv : StatsInv s) :
    (recordSuccess s).processed = s.processed + 1 ∧
    (recordSuccess s).successful = s.successful + 1 ∧
    (recordSuccess s).failed = s.failed ∧
    (recordSuccess s).errors = s.errors ∧
    (recordFailure s e).processed = s.processed + 1 ∧
    (recordFailure s e).failed = s.failed + 1 ∧
    (recordFailure s e).successful = s.successful ∧
    (recordFailure s e).errors = s.errors ++ [e] ∧
    StatsInv (runStats outcomes s) ∧
    (runStats outcomes s).processed = s.processed + outcomes.length := by
  refine ⟨rfl, rfl, rfl, rfl, rfl, rfl, rfl, rfl, ?_, ?_⟩
  · exact runStats_inv outcomes s hinv
  · exact runStats_processed outcomes s

/-- Witness for C10: the bookkeeping facts on a fresh stats object and a
concrete success/failure outcome sequence. -/
theorem processingStats_invariant_witness :
    StatsInv (runStats [.success, .failure "h" "boom"] (initialStats 2)) ∧
    (runStats [.success, .failure "h" "boom"] (initialStats 2)).processed = 0 + 2 := by
  have h := processingStats_invariant (initialStats 2) ("x", "y")
    [.success, .failure "h" "boom"] (by constructor <;> rfl)
  exact ⟨h.2.2.2.2.2.2.2.2.1, h.2.2.2.2.2.2.2.2.2⟩

/-- C6 counterexample: with the configuration as shipped (duplicate check
enabled, `retryFailed` undefined hence falsy) and a record whose status is
`'failed'`, the count query matches the record but the cursor query does not:
the two queries do not apply the same status-exclusion clauses. -/
theorem count_cursor_exclusions_differ :
    countQueryMatches ⟨true, false⟩ (fun _ => true) ⟨some "failed"⟩ = true ∧
    cursorQueryMatches ⟨true, false⟩ (fun _ => true) ⟨some "failed"⟩ = false := by
  constructor <;> rfl

/-- C6 amended: the cursor query's candidate set is a subset of the count
query's candidate set (it applies the count query's `completed` exclusion plus,
when `retryFailed` is disabled — always, as the option is absent from
config.js — a `failed` exclusion the count query lacks); the two queries
agree on a record exactly when `retryFailed` is enabled or the record's
status is not `'failed'`. -/
theorem cursor_subset_of_count (cfg : QueryConfig) (filter : StoreRecord → Bool)
    (r : StoreRecord) :
    (cursorQueryMatches cfg filter r = true → countQueryMatches cfg filter r = true) ∧
    ((cfg.retryFailed = true ∨ r.status ≠ some "failed") →
      cursorQueryMatches cfg filter r = countQueryMatches cfg filter r) := by
  obtain ⟨dup, retry⟩ := cfg
  obtain ⟨st⟩ := r
  cases dup <;> cases retry <;> cases st with
    | _ =>
      first
      | (constructor
         · intro h
           simp_all [cursorQueryMatches, countQueryMatches, statusExclusions]
         · intro h
           simp_all [cursorQueryMatches, countQueryMatches, statusExclusions])
      | (rename_i s
         constructor
         · intro h
           by_cases hc : s = "completed" <;>
             by_cases hf : s = "failed" <;>
             simp_all [cursorQueryMatches, countQueryMatches, statusExclusions]
         · intro h
           by_cases hc : s = "completed" <;>
             by_cases hf : s = "failed" <;>
             simp_all [cursorQueryMatches, countQueryMatches, statusExclusions])

/-- Witness for C6 amended: the subset direction and the agreement condition
evaluated on a concrete unprocessed record under the shipped configuration. -/
theorem cursor_subset_of_count_witness :
    countQueryMatches ⟨true, false⟩ (fun _ => true) ⟨none⟩ = true ∧
    cursorQueryMatches ⟨true, false⟩ (fun _ => true) ⟨none⟩ =
      countQueryMatches ⟨true, false⟩ (fun _ => true) ⟨none⟩ :=
  ⟨(cursor_subset_of_count ⟨true, false⟩ (fun _ => true) ⟨none⟩).1 (by rfl),
   (cursor_subset_of_count ⟨true, false⟩ (fun _ => true) ⟨none⟩).2 (Or.inr (by decide))⟩

/-! ## Claims C1-C2: attempt failure handling and retry -/

def isFailedEvent : StatusEvent → Bool
  | .failed _ => true
  | _ => false

/-- An environment whose render transform always throws `'boom'`. -/
def envRenderBoom : PipelineEnv := ⟨.error "boom", .ok (), .ok (), .success false⟩

/-- An environment where every external call succeeds. -/
def envAllOk : PipelineEnv := ⟨.ok (), .ok (), .ok (), .success false⟩

/-- An environment whose commit fails with a non-EXDEV rename error after the
temp copy has been written. -/
def envRenameFail : PipelineEnv := ⟨.ok (), .ok (), .ok (), .renameFail "EPERM"⟩

/-- A record with a valid hash and an already-decoded magic-header payload. -/
def docMagic : MidiDocument := ⟨some [104], some (.bsonBuffer [77, 84, 104, 100])⟩

/-- A record with a payload but no hash: extraction throws before the
pipeline's `try` block. -/
def docNoHash : MidiDocument := ⟨none, some (.bsonBuffer [77, 84, 104, 100])⟩

theorem processMidiDocument_of_failure {env : PipelineEnv} {doc : MidiDocument}
    {b : List Nat} {m : String}
    (hok : extractMidiBuffer doc = .ok b) (hf : attemptFailure env = some m) :
    (processMidiDocument env doc).events = [.processing, .failed m] ∧
    (processMidiDocument env doc).result = .error m := by
  obtain ⟨r, n, en, cm⟩ := env
  cases r <;> cases n <;> cases en <;> cases cm <;>
    simp_all [processMidiDocument, attemptFailure, commitError]

theorem processRetryGo_zero (envs : Nat → PipelineEnv) (doc : MidiDocument) (a : Nat) :
    processRetryGo envs doc a 0 =
      ⟨(processMidiDocument (envs a) doc).result, 1,
        (processMidiDocument (envs a) doc).events⟩ := rfl

theorem processRetryGo_succ_error {envs : Nat → PipelineEnv} {doc : MidiDocument}
    {a : Nat} {m : String} (k : Nat)
    (hres : (processMidiDocument (envs a) doc).result = .error m) :
    processRetryGo envs doc a (k + 1) =
      ⟨(processRetryGo envs doc (a + 1) k).result,
       (processRetryGo envs doc (a + 1) k).attempts + 1,
       (processMidiDocument (envs a) doc).events ++
         (processRetryGo envs doc (a + 1) k).events⟩ := by
  conv_lhs => rw [processRetryGo]
  simp only [hres]

theorem processRetryGo_all_fail (envs : Nat → PipelineEnv) (doc : MidiDocument)
    (b : List Nat) (hok : extractMidiBuffer doc = .ok b) :
    ∀ (r a : Nat), (∀ i, a ≤ i → i ≤ a + r → (attemptFailure (envs i)).isSome) →
    (processRetryGo envs doc a r).attempts = r + 1 ∧
    (processRetryGo envs doc a r).events.count .processing = r + 1 ∧
    (processRetryGo envs doc a r).events.countP isFailedEvent = r + 1 ∧
    ∃ msg, (processRetryGo envs doc a r).events.getLast? = some (.failed msg) ∧
      (processRetryGo envs doc a r).result = .error msg := by
  intro r
  induction r with
  | zero =>
      intro a h
      obtain ⟨m, hm⟩ := Option.isSome_iff_exists.mp (h a (Nat.le_refl a) (by omega))
      obtain ⟨hev, hres⟩ := processMidiDocument_of_failure hok hm
      rw [processRetryGo_zero, hres, hev]
      refine ⟨rfl, ?_, ?_, m, ?_, rfl⟩ <;>
        simp [List.count_cons, List.countP_cons, isFailedEvent]
  | succ k ih =>
      intro a h
      obtain ⟨m, hm⟩ := Option.isSome_iff_exists.mp (h a (Nat.le_refl a) (by omega))
      obtain ⟨hev, hres⟩ := processMidiDocument_of_failure hok hm
      have hrest := ih (a + 1) (fun i h1 h2 => h i (by omega) (by omega))
      obtain ⟨hat, hcp, hcf, msg, hlast, hresr⟩ := hrest
      rw [processRetryGo_succ_error k hres, hev]
      have hne : (processRetryGo envs doc (a + 1) k).events ≠ [] := by
        intro hnil
        rw [hnil] at hlast
        cases hlast
      refine ⟨by simp [hat], ?_, ?_, msg, ?_, hresr⟩
      · simp [List.count_append, List.count_cons, hcp]
      · simp [List.countP_append, List.countP_cons, isFailedEvent, hcf]
      · rw [List.getLast?_append_of_ne_nil _ hne]
        exact hlast

/-- C1 (amended): for a record whose every pipeline attempt fails after
extraction, `processMidiDocumentWithRetry` makes exactly `maxRetries`
additional attempts (`maxRetries + 1` in total), persists `processing` at the
start of every attempt, and persists `failed` at the end of EVERY failing
attempt — `maxRetries + 1` times, not once — the last persisted status being
`failed` with the final attempt's error, which is also the error surfaced. -/
theorem retry_persists_failed_every_attempt (envs : Nat → PipelineEnv)
    (doc : MidiDocument) (maxRetries : Nat)
    (hok : ∃ b, extractMidiBuffer doc = .ok b)
    (hfail : ∀ i, 1 ≤ i → i ≤ maxRetries + 1 → (attemptFailure (envs i)).isSome) :
    (processMidiDocumentWithRetry envs doc maxRetries).attempts = maxRetries + 1 ∧
    (processMidiDocumentWithRetry envs doc maxRetries).events.count
      .processing = maxRetries + 1 ∧
    (processMidiDocumentWithRetry envs doc maxRetries).events.countP
      isFailedEvent = maxRetries + 1 ∧
    ∃ msg, (processMidiDocumentWithRetry envs doc maxRetries).events.getLast? =
        some (.failed msg) ∧
      (processMidiDocumentWithRetry envs doc maxRetries).result = .error msg := by
  obtain ⟨b, hb⟩ := hok
  exact processRetryGo_all_fail envs doc b hb maxRetries 1
    (fun i h1 h2 => hfail i h1 (by omega))

/-- Witness for C1 (amended): three failing attempts with the default
`maxRetries = 2` on a concrete record and an always-failing render stage. -/
theorem retry_persists_failed_every_attempt_witness :
    (processMidiDocumentWithRetry (fun _ => envRenderBoom) docMagic 2).attempts = 3 ∧
    (processMidiDocumentWithRetry (fun _ => envRenderBoom) docMagic 2).events.count
      .processing = 3 :=
  have hf : ∀ i, 1 ≤ i → i ≤ 2 + 1 →
      (attemptFailure ((fun _ => envRenderBoom) i)).isSome := fun i _ _ =>
    (by decide : (attemptFailure envRenderBoom).isSome = true)
  have h := retry_persists_failed_every_attempt (fun _ => envRenderBoom) docMagic 2
    ⟨[77, 84, 104, 100], by rfl⟩ hf
  ⟨h.1, h.2.1⟩

/-- C1 counterexample: with the default `maxRetries = 2`, a record whose
render stage always throws gets status `failed` persisted after every one of
the three attempts — three times, not "only once, after the final attempt". -/
theorem retry_failed_persisted_thrice :
    (processMidiDocumentWithRetry (fun _ => envRenderBoom) docMagic 2).attempts = 3 ∧
    (processMidiDocumentWithRetry (fun _ => envRenderBoom) docMagic 2).events.countP
      isFailedEvent = 3 ∧
    ¬(processMidiDocumentWithRetry (fun _ => envRenderBoom) docMagic 2).events.countP
      isFailedEvent = 1 := by
  refine ⟨rfl, rfl, ?_⟩
  intro h
  have h3 : (processMidiDocumentWithRetry (fun _ => envRenderBoom) docMagic 2).events.countP
      isFailedEvent = 3 := rfl
  omega

/-- C2 (amended): when an attempt fails at Rendering, Normalizing, Encoding
or Committing, status `failed` carrying the error message is persisted. The
three pipeline temp files (wav, normalized wav, mp3) allocated so far are
always released by the attempt's `finally`; for a failure in one of the three
transform stages that is every temp file of the attempt. A Committing failure
however leaks the extra temp file `writeFileAtomic` allocated internally
whenever the failure arises after its allocation (copy, non-EXDEV rename, or
fallback-copy failure — every mode except the space preflight): the attempt
releases only 3 of its `3 + commitTempsCreated` temp files. When the attempt
fails during Extracting, the error propagates BEFORE any status update — no
`failed` status is persisted (extraction allocates no temp files). -/
theorem attempt_failure_persists_and_cleans (env : PipelineEnv) (doc : MidiDocument) :
    (∀ b m, extractMidiBuffer doc = .ok b → attemptFailure env = some m →
      (processMidiDocument env doc).events = [.processing, .failed m] ∧
      (processMidiDocument env doc).result = .error m) ∧
    (∀ b m, extractMidiBuffer doc = .ok b → transformFailure env = some m →
      (processMidiDocument env doc).tempsReleased =
        (processMidiDocument env doc).tempsCreated) ∧
    (∀ b m, extractMidiBuffer doc = .ok b → transformFailure env = none →
      commitError env.commit = some m →
      (processMidiDocument env doc).tempsReleased = 3 ∧
      (processMidiDocument env doc).tempsCreated =
        3 + commitTempsCreated env.commit) ∧
    (∀ e, extractMidiBuffer doc = .error e →
      (processMidiDocument env doc).result = .error (extractErrMsg e) ∧
      (processMidiDocument env doc).events = [] ∧
      (processMidiDocument env doc).tempsCreated = 0 ∧
      (processMidiDocument env doc).tempsReleased = 0) := by
  refine ⟨?_, ?_, ?_, ?_⟩
  · intro b m hok hf
    exact processMidiDocument_of_failure hok hf
  · intro b m hok htf
    obtain ⟨r, n, en, cm⟩ := env
    cases r <;> cases n <;> cases en <;>
      simp_all [processMidiDocument, transformFailure]
  · intro b m hok htf hce
    obtain ⟨r, n, en, cm⟩ := env
    cases r <;> cases n <;> cases en <;> cases cm <;>
      simp_all [processMidiDocument, transformFailure, commitError,
        commitTempsCreated, commitTempsReleased]
  · intro e he
    unfold processMidiDocument
    rw [he]
    exact ⟨rfl, rfl, rfl, rfl⟩

/-- Witness for C2 (amended): a concrete non-EXDEV rename failure in the
commit persists `failed` with the commit error, releases the three pipeline
temp files, and leaks the one `writeFileAtomic` allocated. -/
theorem attempt_failure_persists_and_cleans_witness :
    (processMidiDocument envRenameFail docMagic).events =
      [.processing, .failed "EPERM"] ∧
    (processMidiDocument envRenameFail docMagic).tempsReleased = 3 ∧
    (processMidiDocument envRenameFail docMagic).tempsCreated = 3 + 1 :=
  have h := attempt_failure_persists_and_cleans envRenameFail docMagic
  ⟨(h.1 [77, 84, 104, 100] "EPERM" (by rfl) (by rfl)).1,
   (h.2.2.1 [77, 84, 104, 100] "EPERM" (by rfl) (by rfl) (by rfl)).1,
   (h.2.2.1 [77, 84, 104, 100] "EPERM" (by rfl) (by rfl) (by rfl)).2⟩

/-- C2 counterexample: (a) a record without a hash fails its attempt in the
Extracting stage, yet no `failed` status (indeed no status at all) is
persisted for it; (b) a commit attempt whose rename fails with a non-EXDEV
error creates four temp files but releases only three — the `.mp3.tmp` copy
survives the attempt. Both refute the claim that for every failing stage
`failed` is persisted and all temp files created during the attempt are
released. -/
theorem extract_failure_persists_no_status :
    (processMidiDocument envAllOk docNoHash).result =
      .error "Document missing midifile.hash" ∧
    (processMidiDocument envAllOk docNoHash).events = [] ∧
    (processMidiDocument envRenameFail docMagic).tempsCreated = 4 ∧
    (processMidiDocument envRenameFail docMagic).tempsReleased = 3 :=
  ⟨rfl, rfl, rfl, rfl⟩

/-! ## Claim C5: atomic write -/

theorem fsGet_fsSet_eq (fs : FileSys) (p : String) (c : List Nat) :
    fsGet (fsSet fs p c) p = some c := by
  simp [fsGet, fsSet, List.lookup]

theorem fsGet_fsDel_ne (p q : String) (h : p ≠ q) (fs : FileSys) :
    fsGet (fsDel fs q) p = fsGet fs p := by
  induction fs with
  | nil => rfl
  | cons e rest ih =>
      obtain ⟨k, v⟩ := e
      by_cases hk : k = q
      · subst hk
        have hpk : (p == k) = false := beq_eq_false_iff_ne.mpr h
        simp [fsDel, fsGet, List.lookup, hpk] at ih ⊢
        simpa [fsDel, fsGet] using ih
      · by_cases hp : k = p <;>
          simp_all [fsDel, fsGet, List.lookup, List.filter]

theorem fsGet_fsSet_ne (p q : String) (h : p ≠ q) (fs : FileSys) (c : List Nat) :
    fsGet (fsSet fs q c) p = fsGet fs p := by
  have hpq : (p == q) = false := beq_eq_false_iff_ne.mpr h
  simp [fsGet, fsSet, List.lookup, hpq]
  simpa [fsGet] using fsGet_fsDel_ne p q h fs

/-- C5 (amended): in the normal (non-EXDEV) path, `writeFileAtomic` writes
only to the temp file and then renames atomically, so every observable state
shows the target path either unchanged from before the call or holding the
complete new content — never a partial file. (In the EXDEV fallback this
guarantee does not hold, and the temp file lives in the configured temp
directory rather than the destination tree; see the counterexample.) -/
theorem writeFileAtomic_rename_keeps_target_whole (fs0 : FileSys)
    (sourcePath targetPath tempPath : String) (content : List Nat)
    (hsrc : fsGet fs0 sourcePath = some content)
    (hne : targetPath ≠ tempPath) :
    ∀ fs ∈ writeFileAtomicTrace fs0 sourcePath targetPath tempPath false,
      fsGet fs targetPath = fsGet fs0 targetPath ∨
      fsGet fs targetPath = some content := by
  intro fs hfs
  unfold writeFileAtomicTrace at hfs
  rw [hsrc] at hfs
  simp only [if_neg (Bool.false_ne_true), List.mem_append] at hfs
  rcases hfs with hcopy | hrename
  · left
    unfold copyFileTrace at hcopy
    rw [hsrc] at hcopy
    obtain ⟨k, _, hk⟩ := List.mem_map.mp hcopy
    subst hk
    exact fsGet_fsSet_ne targetPath tempPath hne fs0 _
  · right
    have hfs1 : fs = renameState (fsSet fs0 tempPath content) tempPath targetPath := by
      simpa using hrename
    subst hfs1
    unfold renameState
    rw [fsGet_fsSet_eq]
    rw [fsGet_fsDel_ne targetPath tempPath hne, fsGet_fsSet_eq]

/-- Witness for C5 (amended): the guarantee evaluated on a concrete
three-byte source file being committed over an absent target. -/
theorem writeFileAtomic_rename_keeps_target_whole_witness :
    ((writeFileAtomicTrace [("src", [1, 2, 3])] "src" "tgt" "tmp" false).all
      (fun fs => (fsGet fs "tgt" == fsGet [("src", [1, 2, 3])] "tgt") ||
        (fsGet fs "tgt" == some [1, 2, 3]))) = true := by
  rw [List.all_eq_true]
  intro fs hfs
  rcases writeFileAtomic_rename_keeps_target_whole [("src", [1, 2, 3])] "src" "tgt"
      "tmp" [1, 2, 3] rfl (by decide) fs hfs with h | h <;> simp [h]

/-- C5 counterexample: in the EXDEV fallback an observable state holds a
strict partial prefix `[1]` of the content `[1, 2, 3]` at the target path
(neither the old state, which was absent, nor the complete file), so the
claim's "no partially-written file is ever visible" is false; moreover the
temp file is allocated under `config.output.tempDirectory`, not inside the
destination tree. -/
theorem writeFileAtomic_exdev_partial_visible :
    ((writeFileAtomicTrace [("src", [1, 2, 3])] "src" "tgt" "tmp" true).any
      (fun fs => fsGet fs "tgt" == some [1])) = true ∧
    fsGet [("src", [1, 2, 3])] "tgt" = none ∧
    ([1] : List Nat) ≠ [1, 2, 3] ∧
    writeFileAtomicTempPath "/app/temp" "e3b0c44298fc" =
      "/app/temp/e3b0c44298fc.mp3.tmp" ∧
    ("/app/output".data.isPrefixOf
      (writeFileAtomicTempPath "/app/temp" "e3b0c44298fc").data) = false := by
  refine ⟨by decide, rfl, by decide, rfl, by decide⟩

/-! ## Claim C3: extraction error characterization -/

theorem hasMagic_not_isEmpty {b : List Nat} (h : hasMagic b = true) :
    b.isEmpty = false := by
  rcases b with _ | ⟨x0, _ | ⟨x1, _ | ⟨x2, _ | ⟨x3, rest⟩⟩⟩⟩ <;> simp_all [hasMagic]

theorem hasMagic_false_of_head {x : Nat} (hx : x ≠ 77) (l : List Nat) :
    hasMagic (x :: l) = false := by
  rcases l with _ | ⟨a, _ | ⟨b, _ | ⟨c, d⟩⟩⟩ <;> simp [hasMagic, hx]

/-- C3 counterexample: the record with hash `'h'` and string payload
`'00000000'` has a payload and a hash, none of the three attempted decodings
(latin1, base64, hex) yields a buffer with the magic header — yet extraction
does not raise an error: it accepts the unvalidated hex decoding
`[0, 0, 0, 0]`, refuting the claimed "error iff no decoding yields the magic
header" and the claimed validation of every attempted decoding. -/
theorem extract_accepts_nonmagic_hex :
    extractMidiBuffer ⟨some [104], some (.str (List.replicate 8 48))⟩ =
      .ok [0, 0, 0, 0] ∧
    hashMissing ⟨some [104], some (.str (List.replicate 8 48))⟩ = false ∧
    hasMagic (latin1Decode (List.replicate 8 48)) = false ∧
    hasMagic (base64Decode (List.replicate 8 48)) = false ∧
    hasMagic (hexDecode (List.replicate 8 48)) = false ∧
    hasMagic [0, 0, 0, 0] = false :=
  ⟨rfl, rfl, rfl, rfl, rfl, rfl⟩

/-- The spec's rejection condition (following the spec's words, to be compared
with the code-derived `extractMidiBuffer`), amended with the exact condition
under which a string payload is rejected. -/
def specRejects (doc : MidiDocument) : Prop :=
  hashMissing doc = true ∨ doc.data = none ∨ doc.data = some .unknown ∨
  (∃ s, doc.data = some (.str s) ∧ hasMagic (latin1Decode s) = false ∧
    hasMagic (base64Decode s) = false ∧ hexDecode s = []) ∨
  doc.data = some (.bsonBuffer []) ∨ doc.data = some (.directBuffer []) ∨
  doc.data = some (.valueFn []) ∨ doc.data = some (.arrayBuffer []) ∨
  doc.data = some (.objBuffer [])

theorem specRejects_str_false {doc : MidiDocument} {s : List Nat}
    (hd : doc.data = some (.str s)) (hh : hashMissing doc = false)
    (hcase : ¬(hasMagic (latin1Decode s) = false ∧
      hasMagic (base64Decode s) = false ∧ hexDecode s = [])) :
    ¬specRejects doc := by
  rintro (h | h | h | ⟨t, ht, hl, hb, hx⟩ | h | h | h | h | h) <;>
    first
    | (rw [h] at hd; simp at hd)
    | exact absurd h (by simp [hh])
    | (rw [hd] at ht
       have : s = t := by injection ht with ht2; injection ht2
       subst this
       exact hcase ⟨hl, hb, hx⟩)

/-- C3 (amended): extraction raises an error iff the record lacks a (truthy)
hash, lacks a payload, carries a payload of unrecognized shape, or carries a
string payload whose latin1 and base64 decodings both fail the magic-header
check while its hex decoding is empty. Only the latin1 and base64 attempts
are validated against the magic header before acceptance (the first
validated match winning); when both fail, the hex decoding is accepted
unvalidated whenever it is non-empty, and the wrapped-binary shapes are
accepted unvalidated whenever non-empty. -/
theorem extract_error_characterization (doc : MidiDocument) :
    ((∃ e, extractMidiBuffer doc = .error e) ↔ specRejects doc) ∧
    (∀ s, doc.data = some (.str s) → hashMissing doc = false →
      (hasMagic (latin1Decode s) = true →
        extractMidiBuffer doc = .ok (latin1Decode s)) ∧
      (hasMagic (latin1Decode s) = false → hasMagic (base64Decode s) = true →
        extractMidiBuffer doc = .ok (base64Decode s)) ∧
      (hasMagic (latin1Decode s) = false → hasMagic (base64Decode s) = false →
        hexDecode s ≠ [] → extractMidiBuffer doc = .ok (hexDecode s))) := by
  have hstr : ∀ s, doc.data = some (.str s) → hashMissing doc = false →
      (hasMagic (latin1Decode s) = true →
        extractMidiBuffer doc = .ok (latin1Decode s)) ∧
      (hasMagic (latin1Decode s) = false → hasMagic (base64Decode s) = true →
        extractMidiBuffer doc = .ok (base64Decode s)) ∧
      (hasMagic (latin1Decode s) = false → hasMagic (base64Decode s) = false →
        hexDecode s ≠ [] → extractMidiBuffer doc = .ok (hexDecode s)) := by
    intro s hd hh
    refine ⟨?_, ?_, ?_⟩
    · intro h1
      have hne := hasMagic_not_isEmpty h1
      simp [extractMidiBuffer, hh, hd, decodeStringPayload, h1, hne]
    · intro h1 h2
      have hne := hasMagic_not_isEmpty h2
      simp [extractMidiBuffer, hh, hd, decodeStringPayload, h1, h2, hne]
    · intro h1 h2 h3
      simp [extractMidiBuffer, hh, hd, decodeStringPayload, h1, h2,
        List.isEmpty_iff, h3]
  refine ⟨?_, hstr⟩
  by_cases hh : hashMissing doc = true
  · refine iff_of_true ⟨.missingHash, by simp [extractMidiBuffer, hh]⟩ (Or.inl hh)
  · rw [Bool.not_eq_true] at hh
    rcases hd : doc.data with _ | d
    · refine iff_of_true ⟨.missingData, by simp [extractMidiBuffer, hh, hd]⟩
        (Or.inr (Or.inl hd))
    · cases d with
      | str s =>
          by_cases h1 : hasMagic (latin1Decode s) = true
          · refine iff_of_false ?_ (specRejects_str_false hd hh (by simp [h1]))
            rw [((hstr s hd hh).1 h1)]
            rintro ⟨e, he⟩
            cases he
          · rw [Bool.not_eq_true] at h1
            by_cases h2 : hasMagic (base64Decode s) = true
            · refine iff_of_false ?_ (specRejects_str_false hd hh (by simp [h2]))
              rw [((hstr s hd hh).2.1 h1 h2)]
              rintro ⟨e, he⟩
              cases he
            · rw [Bool.not_eq_true] at h2
              by_cases h3 : hexDecode s = []
              · refine iff_of_true ?_
                  (Or.inr (Or.inr (Or.inr (Or.inl ⟨s, hd, h1, h2, h3⟩))))
                exact ⟨.missingData, by
                  simp [extractMidiBuffer, hh, hd, decodeStringPayload, h1, h2, h3]⟩
              · refine iff_of_false ?_ (specRejects_str_false hd hh (by simp [h3]))
                rw [((hstr s hd hh).2.2 h1 h2 h3)]
                rintro ⟨e, he⟩
                cases he
      | bsonBuffer b =>
          by_cases hb : b = []
          · subst hb
            refine iff_of_true ⟨.missingData, by simp [extractMidiBuffer, hh, hd]⟩
              (Or.inr (Or.inr (Or.inr (Or.inr (Or.inl hd)))))
          · refine iff_of_false ?_ ?_
            · simp [extractMidiBuffer, hh, hd, List.isEmpty_iff, hb]
            · rintro (h | h | h | ⟨t, ht, _⟩ | h | h | h | h | h) <;>
                first
                | exact absurd h (by simp [hh])
                | (rw [h] at hd; simp_all)
                | (rw [ht] at hd; simp_all)
      | directBuffer b =>
          by_cases hb : b = []
          · subst hb
            refine iff_of_true ⟨.missingData, by simp [extractMidiBuffer, hh, hd]⟩
              (Or.inr (Or.inr (Or.inr (Or.inr (Or.inr (Or.inl hd))))))
          · refine iff_of_false ?_ ?_
            · simp [extractMidiBuffer, hh, hd, List.isEmpty_iff, hb]
            · rintro (h | h | h | ⟨t, ht, _⟩ | h | h | h | h | h) <;>
                first
                | exact absurd h (by simp [hh])
                | (rw [h] at hd; simp_all)
                | (rw [ht] at hd; simp_all)
      | valueFn b =>
          by_cases hb : b = []
          · subst hb
            refine iff_of_true ⟨.missingData, by simp [extractMidiBuffer, hh, hd]⟩
              (Or.inr (Or.inr (Or.inr (Or.inr (Or.inr (Or.inr (Or.inl hd)))))))
          · refine iff_of_false ?_ ?_
            · simp [extractMidiBuffer, hh, hd, List.isEmpty_iff, hb]
            · rintro (h | h | h | ⟨t, ht, _⟩ | h | h | h | h | h) <;>
                first
                | exact absurd h (by simp [hh])
                | (rw [h] at hd; simp_all)
                | (rw [ht] at hd; simp_all)
      | arrayBuffer b =>
          by_cases hb : b = []
          · subst hb
            refine iff_of_true ⟨.missingData, by simp [extractMidiBuffer, hh, hd]⟩
              (Or.inr (Or.inr (Or.inr (Or.inr (Or.inr (Or.inr (Or.inr (Or.inl hd))))))))
          · refine iff_of_false ?_ ?_
            · simp [extractMidiBuffer, hh, hd, List.isEmpty_iff, hb]
            · rintro (h | h | h | ⟨t, ht, _⟩ | h | h | h | h | h) <;>
                first
                | exact absurd h (by simp [hh])
                | (rw [h] at hd; simp_all)
                | (rw [ht] at hd; simp_all)
      | objBuffer b =>
          by_cases hb : b = []
          · subst hb
            refine iff_of_true ⟨.missingData, by simp [extractMidiBuffer, hh, hd]⟩
              (Or.inr (Or.inr (Or.inr (Or.inr (Or.inr (Or.inr (Or.inr (Or.inr hd))))))))
          · refine iff_of_false ?_ ?_
            · simp [extractMidiBuffer, hh, hd, List.isEmpty_iff, hb]
            · rintro (h | h | h | ⟨t, ht, _⟩ | h | h | h | h | h) <;>
                first
                | exact absurd h (by simp [hh])
                | (rw [h] at hd; simp_all)
                | (rw [ht] at hd; simp_all)
      | unknown =>
          refine iff_of_true ⟨.unknownFormat, by simp [extractMidiBuffer, hh, hd]⟩
            (Or.inr (Or.inr (Or.inl hd)))

/-- Witness for C3 (amended): the characterization applied to a concrete
hashless record (error side) and to a concrete raw-latin1 record (priority
side). -/
theorem extract_error_characterization_witness :
    (∃ e, extractMidiBuffer ⟨none, some (.bsonBuffer [77, 84, 104, 100])⟩ = .error e) ∧
    extractMidiBuffer ⟨some [104], some (.str [77, 84, 104, 100])⟩ =
      .ok (latin1Decode [77, 84, 104, 100]) :=
  ⟨(extract_error_characterization ⟨none, some (.bsonBuffer [77, 84, 104, 100])⟩).1.mpr
      (Or.inl rfl),
   ((extract_error_characterization ⟨some [104], some (.str [77, 84, 104, 100])⟩).2
      [77, 84, 104, 100] rfl rfl).1 rfl⟩

/-! ## Claim C4: encoding round-trips -/

theorem b64Val_b64Char : ∀ v, v < 64 → b64Val (b64Char v) = some v := by decide

theorem isB64Char_b64Char (v : Nat) (hv : v < 64) : isB64Char (b64Char v) = true := by
  simp [isB64Char, b64Val_b64Char v hv]

theorem isB64Char_pad : isB64Char 61 = false := by decide

theorem b64Char_ne_pad : ∀ v, v < 64 → (b64Char v != 61) = true := by decide

theorem hexVal_hexDigitChar : ∀ v, v < 16 → hexVal (hexDigitChar v) = some v := by decide

theorem latin1Decode_bytes :
    ∀ b : List Nat, (∀ x ∈ b, x < 256) → latin1Decode b = b := by
  intro b h
  induction b with
  | nil => rfl
  | cons x rest ih =>
      simp only [latin1Decode, List.map_cons]
      rw [Nat.mod_eq_of_lt (h x (List.mem_cons_self x rest))]
      have := ih (fun y hy => h y (List.mem_cons_of_mem _ hy))
      simp only [latin1Decode] at this
      rw [this]

theorem hexDecode_hexEncode :
    ∀ b : List Nat, (∀ x ∈ b, x < 256) → hexDecode (hexEncode b) = b := by
  intro b
  induction b with
  | nil => intro _; rfl
  | cons x rest ih =>
      intro h
      have hx : x < 256 := h x (List.mem_cons_self x rest)
      have h1 : hexVal (hexDigitChar (x / 16)) = some (x / 16) :=
        hexVal_hexDigitChar _ (by omega)
      have h2 : hexVal (hexDigitChar (x % 16)) = some (x % 16) :=
        hexVal_hexDigitChar _ (by omega)
      simp only [hexEncode, hexDecode, h1, h2]
      rw [show x / 16 * 16 + x % 16 = x from by omega,
        ih (fun y hy => h y (List.mem_cons_of_mem _ hy))]

theorem base64Decode_base64Encode :
    ∀ b : List Nat, (∀ x ∈ b, x < 256) → base64Decode (base64Encode b) = b := by
  intro b
  induction b using base64Encode.induct with
  | case1 b1 b2 b3 rest ih =>
      intro h
      have hb1 : b1 < 256 := h _ (by simp)
      have hb2 : b2 < 256 := h _ (by simp)
      have hb3 : b3 < 256 := h _ (by simp)
      have e1 := isB64Char_b64Char (b1 / 4) (by omega)
      have e2 := isB64Char_b64Char ((b1 % 4) * 16 + b2 / 16) (by omega)
      have e3 := isB64Char_b64Char ((b2 % 16) * 4 + b3 / 64) (by omega)
      have e4 := isB64Char_b64Char (b3 % 64) (by omega)
      have d1 := b64Val_b64Char (b1 / 4) (by omega)
      have d2 := b64Val_b64Char ((b1 % 4) * 16 + b2 / 16) (by omega)
      have d3 := b64Val_b64Char ((b2 % 16) * 4 + b3 / 64) (by omega)
      have d4 := b64Val_b64Char (b3 % 64) (by omega)
      have t1 := b64Char_ne_pad (b1 / 4) (by omega)
      have t2 := b64Char_ne_pad ((b1 % 4) * 16 + b2 / 16) (by omega)
      have t3 := b64Char_ne_pad ((b2 % 16) * 4 + b3 / 64) (by omega)
      have t4 := b64Char_ne_pad (b3 % 64) (by omega)
      have hrest := ih (fun y hy => h y (by simp [hy]))
      simp only [base64Decode] at hrest
      simp only [base64Encode, base64Decode, List.takeWhile_cons, t1, t2, t3, t4,
        List.filter_cons, e1, e2, e3, e4,
        if_true, b64DecodeChunks, d1, d2, d3, d4, Option.getD_some]
      rw [show b1 / 4 * 4 + ((b1 % 4) * 16 + b2 / 16) / 16 = b1 from by omega,
        show ((b1 % 4) * 16 + b2 / 16) % 16 * 16 + ((b2 % 16) * 4 + b3 / 64) / 4 = b2
          from by omega,
        show ((b2 % 16) * 4 + b3 / 64) % 4 * 64 + b3 % 64 = b3 from by omega,
        hrest]
  | case2 b1 b2 =>
      intro h
      have hb1 : b1 < 256 := h _ (by simp)
      have hb2 : b2 < 256 := h _ (by simp)
      have e1 := isB64Char_b64Char (b1 / 4) (by omega)
      have e2 := isB64Char_b64Char ((b1 % 4) * 16 + b2 / 16) (by omega)
      have e3 := isB64Char_b64Char ((b2 % 16) * 4) (by omega)
      have d1 := b64Val_b64Char (b1 / 4) (by omega)
      have d2 := b64Val_b64Char ((b1 % 4) * 16 + b2 / 16) (by omega)
      have d3 := b64Val_b64Char ((b2 % 16) * 4) (by omega)
      have t1 := b64Char_ne_pad (b1 / 4) (by omega)
      have t2 := b64Char_ne_pad ((b1 % 4) * 16 + b2 / 16) (by omega)
      have t3 := b64Char_ne_pad ((b2 % 16) * 4) (by omega)
      simp only [base64Encode, base64Decode, List.takeWhile_cons, t1, t2, t3,
        bne_self_eq_false, List.filter_cons, e1, e2, e3,
        if_true, if_false, List.filter_nil, b64DecodeChunks,
        d1, d2, d3, Option.getD_some]
      rw [show b1 / 4 * 4 + ((b1 % 4) * 16 + b2 / 16) / 16 = b1 from by omega,
        show ((b1 % 4) * 16 + b2 / 16) % 16 * 16 + (b2 % 16) * 4 / 4 = b2 from by omega]
  | case3 b1 =>
      intro h
      have hb1 : b1 < 256 := h _ (by simp)
      have e1 := isB64Char_b64Char (b1 / 4) (by omega)
      have e2 := isB64Char_b64Char ((b1 % 4) * 16) (by omega)
      have d1 := b64Val_b64Char (b1 / 4) (by omega)
      have d2 := b64Val_b64Char ((b1 % 4) * 16) (by omega)
      have t1 := b64Char_ne_pad (b1 / 4) (by omega)
      have t2 := b64Char_ne_pad ((b1 % 4) * 16) (by omega)
      simp only [base64Encode, base64Decode, List.takeWhile_cons, t1, t2,
        bne_self_eq_false, List.filter_cons, e1, e2,
        if_true, if_false, List.filter_nil, b64DecodeChunks,
        d1, d2, Option.getD_some]
      rw [show b1 / 4 * 4 + (b1 % 4) * 16 / 16 = b1 from by omega]
  | case4 => intro _; rfl

theorem hasMagic_shape {b : List Nat} (hm : hasMagic b = true) :
    ∃ rest, b = 77 :: 84 :: 104 :: 100 :: rest := by
  rcases b with _ | ⟨x0, _ | ⟨x1, _ | ⟨x2, _ | ⟨x3, rest⟩⟩⟩⟩ <;> simp_all [hasMagic]

theorem latin1_of_base64Encode_not_magic {b : List Nat} (hm : hasMagic b = true) :
    hasMagic (latin1Decode (base64Encode b)) = false := by
  obtain ⟨rest, hb⟩ := hasMagic_shape hm
  subst hb
  simp only [base64Encode, latin1Decode, List.map_cons]
  exact hasMagic_false_of_head (by norm_num [b64Char]) _

theorem latin1_of_hexEncode_not_magic {b : List Nat} (hm : hasMagic b = true) :
    hasMagic (latin1Decode (hexEncode b)) = false := by
  obtain ⟨rest, hb⟩ := hasMagic_shape hm
  subst hb
  simp only [hexEncode, latin1Decode, List.map_cons]
  exact hasMagic_false_of_head (by norm_num [hexDigitChar]) _

theorem base64_of_hexEncode_not_magic {b : List Nat} (hm : hasMagic b = true) :
    hasMagic (base64Decode (hexEncode b)) = false := by
  obtain ⟨rest, hb⟩ := hasMagic_shape hm
  subst hb
  simp only [hexEncode, base64Decode]
  norm_num [hexDigitChar, isB64Char, b64Val, b64DecodeChunks,
    List.takeWhile_cons, List.filter_cons]
  exact hasMagic_false_of_head (by norm_num) _

/-- C4: for every canonical byte buffer beginning with the magic header, each
of its four valid payload encodings — raw/latin1 code units, base64 text,
lowercase hex text, wrapped-binary container — is decoded by extraction back
to the identical canonical buffer (for any record carrying a truthy hash). -/
theorem extraction_recovers_canonical (b hsh : List Nat)
    (hbytes : ∀ x ∈ b, x < 256) (hm : hasMagic b = true) (hhash : hsh ≠ []) :
    extractMidiBuffer ⟨some hsh, some (.str b)⟩ = .ok b ∧
    extractMidiBuffer ⟨some hsh, some (.str (base64Encode b))⟩ = .ok b ∧
    extractMidiBuffer ⟨some hsh, some (.str (hexEncode b))⟩ = .ok b ∧
    extractMidiBuffer ⟨some hsh, some (.bsonBuffer b)⟩ = .ok b := by
  have hhm : hashMissing ⟨some hsh, some (.str b)⟩ = false := by
    simp [hashMissing, List.isEmpty_iff, hhash]
  have hne : b.isEmpty = false := hasMagic_not_isEmpty hm
  have hlat : latin1Decode b = b := latin1Decode_bytes b hbytes
  refine ⟨?_, ?_, ?_, ?_⟩
  · simp [extractMidiBuffer, hashMissing, List.isEmpty_iff, hhash,
      decodeStringPayload, hlat, hm, hne]
  · have h1 : hasMagic (latin1Decode (base64Encode b)) = false :=
      latin1_of_base64Encode_not_magic hm
    have h2 : base64Decode (base64Encode b) = b := base64Decode_base64Encode b hbytes
    simp [extractMidiBuffer, hashMissing, List.isEmpty_iff, hhash,
      decodeStringPayload, h1, h2, hm, hne]
  · have h1 : hasMagic (latin1Decode (hexEncode b)) = false :=
      latin1_of_hexEncode_not_magic hm
    have h2 : hasMagic (base64Decode (hexEncode b)) = false :=
      base64_of_hexEncode_not_magic hm
    have h3 : hexDecode (hexEncode b) = b := hexDecode_hexEncode b hbytes
    simp [extractMidiBuffer, hashMissing, List.isEmpty_iff, hhash,
      decodeStringPayload, h1, h2, h3, hm, hne]
  · simp [extractMidiBuffer, hashMissing, List.isEmpty_iff, hhash, hne]

/-- Witness for C4: the four recoveries evaluated on the four-byte canonical
buffer `MThd` with hash `'h'`. -/
theorem extraction_recovers_canonical_witness :
    extractMidiBuffer ⟨some [104], some (.str [77, 84, 104, 100])⟩ =
      .ok [77, 84, 104, 100] ∧
    extractMidiBuffer ⟨some [104], some (.str (base64Encode [77, 84, 104, 100]))⟩ =
      .ok [77, 84, 104, 100] ∧
    extractMidiBuffer ⟨some [104], some (.str (hexEncode [77, 84, 104, 100]))⟩ =
      .ok [77, 84, 104, 100] ∧
    extractMidiBuffer ⟨some [104], some (.bsonBuffer [77, 84, 104, 100])⟩ =
      .ok [77, 84, 104, 100] :=
  extraction_recovers_canonical [77, 84, 104, 100] [104] (by decide) (by decide)
    (by decide)

end MidiToAudio
